import Mathlib

/-!
# Verification of the JIRA Ticket UI tool's ticket-set state manager

Shallow embedding of `src/jiraUI_ENG_pub_v1.2.py`.  Remote (JIRA) calls are
modelled as explicit parameters: a fetch/search operation takes the value the
remote service returned (`Except` for calls that can raise, a plain list for
calls whose failures are swallowed per key).  Python `messagebox` calls are
modelled as a list of emitted `Report`s.  Python strings are Lean `String`s;
Python's code-point lexicographic string comparison is modelled by `lexLe`
on the character lists.
-/

namespace JiraTicketTool

/-- A ticket: either a dummy stub synthesized for a locked key (only the key
is known, `hasattr(ticket, "fields")` is false) or a full issue returned by
the remote service. -/
inductive Ticket where
  | stub (key : String)
  | full (key : String) (summary : String) (description : Option String)
deriving DecidableEq

/-- `ticket.key` in the source. -/
def Ticket.key : Ticket → String
  | .stub k => k
  | .full k _ _ => k

/-- A user-visible message box: `messagebox.showinfo`/`showwarning` vs
`messagebox.showerror`. -/
inductive Report where
  | info (msg : String)
  | error (msg : String)
deriving DecidableEq

/-- The mutable state of `JiraUI` that the claims are about:
`self.current_page`, `self.tickets`, `self.locked_tickets`.
The Python `set` of locked keys is modelled as a duplicate-free list. -/
structure UIState where
  current_page : Nat
  tickets : List Ticket
  locked_tickets : List String
deriving DecidableEq

/-! ## Python string comparison (code-point lexicographic) -/

/-- Python's `<=` on strings: lexicographic comparison by code point,
on the underlying character lists. -/
def lexLe : List Char → List Char → Bool
  | [], _ => true
  | _ :: _, [] => false
  | a :: as, b :: bs =>
    if a.toNat < b.toNat then true
    else if b.toNat < a.toNat then false
    else lexLe as bs

/-- Strict string inequality, phrased as "unequal and lexLe". -/
def strNeLt (x y : String) : Prop := ¬ x = y ∧ lexLe x.data y.data = true

/-- Concatenation of a list of strings (the value the `conv += ...` loop of
`get_ticket_conversation` accumulates). -/
def joinStr : List String → String
  | [] => ""
  | s :: rest => s ++ joinStr rest

/-! ## The display sort key (`JiraUI.update_ticket_list_display.sort_key`) -/

/-- Python `key.split(sep)` for a one-character separator, on char lists. -/
def splitOnChar (sep : Char) : List Char → List (List Char)
  | [] => [[]]
  | c :: cs =>
    if c = sep then [] :: splitOnChar sep cs
    else
      match splitOnChar sep cs with
      | [] => [[c]]
      | g :: gs => (c :: g) :: gs

/-- Python `int(s)` restricted to plain digit strings (ticket-key numeric
suffixes match `\d+`); any non-digit or empty input raises, modelled as
`none`. -/
def parseIntOpt (cs : List Char) : Option Nat :=
  if cs ≠ [] ∧ cs.all Char.isDigit then
    some (cs.foldl (fun n c => n * 10 + (c.toNat - 48)) 0)
  else none

/-- `sort_key(ticket)` from `update_ticket_list_display`: the tuple
`(locked_flag, prefix_part, -num)`, where splitting the key on `-` must give
exactly two parts with a numeric second part, else the whole key is used
with numeric value 0. -/
def sort_key (locked : List String) (t : Ticket) : Nat × String × Int :=
  let pn : String × Int :=
    match splitOnChar '-' t.key.data with
    | [p, n] =>
      match parseIntOpt n with
      | some m => (String.mk p, (m : Int))
      | none => (t.key, 0)
    | _ => (t.key, 0)
  (if t.key ∈ locked then 0 else 1, pn.1, -pn.2)

/-- Python's `<=` on the `(Nat, String, Int)` sort-key tuples
(lexicographic tuple comparison). -/
def tripleLE (a b : Nat × String × Int) : Bool :=
  if a.1 ≠ b.1 then decide (a.1 < b.1)
  else if a.2.1 ≠ b.2.1 then lexLe a.2.1.data b.2.1.data
  else decide (a.2.2 ≤ b.2.2)

/-- The (total pre)order `sorted(self.tickets, key=sort_key)` sorts by. -/
def TicketLe (locked : List String) (t u : Ticket) : Prop :=
  tripleLE (sort_key locked t) (sort_key locked u) = true

instance (locked : List String) : DecidableRel (TicketLe locked) := fun _ _ =>
  inferInstanceAs (Decidable (_ = true))

/-- `JiraUI.update_ticket_list_display`: sort the collection stably by
`sort_key` and render each key, appending `*` to locked keys that do not
already end in `*`.  (Python's `sorted` is a stable sort, as is
`List.insertionSort`.) -/
def update_ticket_list_display (tickets : List Ticket) (locked : List String) :
    List String :=
  let sorted_tickets := List.insertionSort (TicketLe locked) tickets
  sorted_tickets.map (fun t =>
    if t.key ∈ locked ∧ ¬ (t.key.data.getLast? = some '*') then t.key ++ "*"
    else t.key)

/-! ## Remote gateway results and `fetch_tickets` -/

/-- `get_recent_tickets`: returns the issues on success; on an exception
shows an error box and returns `[]`. -/
def get_recent_tickets (resp : Except String (List Ticket)) :
    List Ticket × List Report :=
  match resp with
  | .ok issues => (issues, [])
  | .error e => ([], [Report.error ("Failed to retrieve tickets: " ++ e)])

/-- Lines 253-256 of `fetch_tickets`: on the first page the collection is
reduced to its locked tickets (this runs before the emptiness check on the
remote result); on later pages it is left as is. -/
def fetchBase (s : UIState) : List Ticket :=
  if s.current_page = 1 then
    s.tickets.filter (fun t => t.key ∈ s.locked_tickets)
  else s.tickets

/-- `JiraUI.fetch_tickets`, given the remote response (the `connect_jira`
step is assumed to have succeeded; on connection failure the method returns
before touching any state).  Mirrors the source exactly: the page-1 reset to
locked tickets happens before the emptiness check, `existing_keys` is
snapshotted once before the append loop, and the page counter advances only
on a non-empty result. -/
def fetch_tickets (s : UIState) (resp : Except String (List Ticket)) :
    UIState × List Report :=
  let nr := get_recent_tickets resp
  let base := fetchBase s
  if nr.1.isEmpty then
    ({ s with tickets := base }, nr.2 ++ [Report.info "No more tickets available."])
  else
    let existing_keys := base.map Ticket.key
    ({ s with
        tickets := base ++ nr.1.filter (fun t => t.key ∉ existing_keys),
        current_page := s.current_page + 1 }, nr.2)

/-! ## `search_ticket_action`: the dict-based merge -/

/-- A Python `dict` keyed by ticket key, as an association list in
insertion order; assignment `d[k] = v` replaces the entry in place or
appends a new one. -/
def dictInsert (k : String) (v : Ticket) : List (String × Ticket) → List (String × Ticket)
  | [] => [(k, v)]
  | p :: ps => if p.1 = k then (k, v) :: ps else p :: dictInsert k v ps

/-- Insert every ticket of `ts` (left to right) into the dict under its key. -/
def dictInsertList (d : List (String × Ticket)) (ts : List Ticket) :
    List (String × Ticket) :=
  ts.foldl (fun d t => dictInsert t.key t d) d

/-- The keys of a dict, in insertion order. -/
def dictKeys (d : List (String × Ticket)) : List String := d.map Prod.fst

/-- `d[a]` as an option (the entry with key `a`; dicts built by
`dictInsert` hold each key at most once). -/
def dlookup (a : String) : List (String × Ticket) → Option Ticket
  | [] => none
  | p :: ps => if p.1 = a then some p.2 else dlookup a ps

/-- The first ticket with key `a` in a plain ticket list. -/
def lookupKey (a : String) : List Ticket → Option Ticket
  | [] => none
  | t :: ts => if t.key = a then some t else lookupKey a ts

/-- The last ticket with key `a` in a plain ticket list (the one a
left-to-right sequence of dict assignments leaves in place). -/
def lookupLast (a : String) : List Ticket → Option Ticket
  | [] => none
  | t :: ts =>
    match lookupLast a ts with
    | some u => some u
    | none => if t.key = a then some t else none

/-- Every dict entry's value carries the entry's key (true for all dicts the
search merge builds, since tickets are inserted under their own key). -/
def WFDict (d : List (String × Ticket)) : Prop := ∀ p ∈ d, Ticket.key p.2 = p.1

/-- `JiraUI.search_ticket_action`, given the list the remote search returned
(`search_tickets` swallows per-key failures, so a failed lookup yields an
empty list).  On an empty result an info box is shown and the state is left
untouched; otherwise the merge of lines 334-344 of the source runs. -/
def search_ticket_action (s : UIState) (results : List Ticket) :
    UIState × List Report :=
  if results.isEmpty then
    (s, [Report.info "No tickets found matching the search criteria."])
  else
    let locked_dict :=
      dictInsertList [] (s.tickets.filter (fun t => t.key ∈ s.locked_tickets))
    let d2 := dictInsertList locked_dict results
    let merged := d2.map Prod.snd
    let non_locked := results.filter (fun t => t.key ∉ s.locked_tickets)
    let merged_keys := merged.map Ticket.key
    let merged2 := merged ++ non_locked.filter (fun t => t.key ∉ merged_keys)
    ({ s with tickets := merged2 },
     [Report.info ("Found " ++ toString merged2.length ++ " ticket(s).\n")])

/-! ## Lock toggling and startup -/

/-- `JiraUI.lock_selected_tickets`, given the (already `*`-stripped) keys of
the selected rows: toggles each key in the locked set. -/
def lock_selected_tickets (s : UIState) (keys : List String) : UIState :=
  { s with
    locked_tickets :=
      keys.foldl
        (fun l k => if k ∈ l then l.filter (fun x => x ≠ k) else l ++ [k])
        s.locked_tickets }

/-- Startup stub synthesis (lines 211-218): for each locked key not present
in the (initially empty) collection, append a dummy ticket holding only the
key. -/
def startup_stubs (locked : List String) : List Ticket :=
  locked.foldl
    (fun ts k => if ts.any (fun t => t.key = k) then ts else ts ++ [Ticket.stub k])
    []

/-- The state right after `JiraUI.__init__` with locked keys loaded from the
config file: page counter 1, collection holding one stub per locked key. -/
def initState (locked : List String) : UIState :=
  { current_page := 1, tickets := startup_stubs locked, locked_tickets := locked }

/-! ## Operation sequences -/

/-- One user-triggered operation on the manager state, carrying the value
the remote service returned for it. -/
inductive Op where
  | fetch (resp : Except String (List Ticket))
  | search (results : List Ticket)
  | toggle (keys : List String)

/-- Apply one operation (discarding the reports). -/
def applyOp (s : UIState) : Op → UIState
  | .fetch resp => (fetch_tickets s resp).1
  | .search results => (search_ticket_action s results).1
  | .toggle keys => lock_selected_tickets s keys

/-- Run a sequence of operations. -/
def runOps (s : UIState) (ops : List Op) : UIState := ops.foldl applyOp s

/-- The collection holds no two entries with equal key. -/
def KeysNodup (s : UIState) : Prop := (s.tickets.map Ticket.key).Nodup

instance (s : UIState) : Decidable (KeysNodup s) :=
  inferInstanceAs (Decidable (List.Nodup _))

/-- A fetch operation's remote page contains pairwise-distinct keys (the
gateway lists pages of a ticket listing); searches and toggles are
unconstrained. -/
def OpOk : Op → Bool
  | .fetch (.ok l) => decide ((l.map Ticket.key).Nodup)
  | _ => true

/-- The operation is a fetch or a search (no lock toggling). -/
def FetchOrSearch : Op → Bool
  | .toggle _ => false
  | _ => true

/-! ## Selection (`on_ticket_select`) -/

/-- `JiraUI.on_ticket_select` resolves the clicked row index `i` of the
list box to `self.tickets[index]` — an index into the collection in
insertion order, not into the sorted display. -/
def on_ticket_select (s : UIState) (i : Nat) : Option Ticket := s.tickets[i]?

/-- Python `label.rstrip("*")`: drop all trailing `*` characters (used by
the open/lock/export handlers to turn a display label back into a key). -/
def rstripStar (l : String) : String :=
  String.mk ((l.data.reverse.dropWhile (fun c => c = '*')).reverse)

/-! ## Identity resolver (`get_display_name` and `user_cache`) -/

/-- `get_display_name(account_id, jira)`.  The global `user_cache` dict is
passed and returned explicitly.  The remote `jira.user` call is modelled as
`remote : id ↦ Except error (Option displayName)` — `.ok none` is a user
object lacking a `displayName` attribute, in which case `getattr`'s
fallback returns the account id itself. -/
def get_display_name (remote : String → Except String (Option String))
    (cache : List (String × String)) (account_id : String) :
    String × List (String × String) :=
  match (cache.find? (fun p => p.1 == account_id)).map Prod.snd with
  | some name => (name, cache)
  | none =>
    match remote account_id with
    | .ok user_obj =>
      let name := user_obj.getD account_id
      (name, cache ++ [(account_id, name)])
    | .error _ => ("Unknown User", cache)

/-! ## Mention rewriter (`resolve_mentions`) -/

/-- The literal marker opening matched by the regex `\[~accountid:`. -/
def mentionTag : List Char := ['[', '~', 'a', 'c', 'c', 'o', 'u', 'n', 't', 'i', 'd', ':']

/-- `re.sub(r"\[~accountid:([^\]]+)\]", lambda m: "@" + resolve(m.group(1)), text)`
as a left-to-right scanner: at each position, if the marker opening follows
and a nonempty run of non-`]` characters is closed by `]`, the whole match
is replaced by `@` followed by the resolved name and scanning resumes after
the `]`; otherwise the character is kept and scanning moves one position
right.  `res` is the resolver applied to the captured id. -/
def resolveMentionsAux (res : String → String) : Nat → List Char → List Char
  | _, [] => []
  | 0, l => l
  | fuel + 1, c :: cs =>
    if mentionTag.isPrefixOf (c :: cs) then
      let idChars := ((c :: cs).drop 12).takeWhile (fun ch => ch ≠ ']')
      if idChars.isEmpty then c :: resolveMentionsAux res fuel cs
      else if (((c :: cs).drop 12).drop idChars.length).head? = some ']' then
        '@' :: (res (String.mk idChars)).data ++
          resolveMentionsAux res fuel (cs.drop (idChars.length + 12))
      else c :: resolveMentionsAux res fuel cs
    else c :: resolveMentionsAux res fuel cs

/-- `resolve_mentions(text, jira)` (the `if not text` guard is the identity
on the empty string, which the scanner also maps to itself).  The fuel
argument of the scanner starts at the text length, which bounds the number
of scanning steps, so it is never exhausted. -/
def resolve_mentions (res : String → String) (text : String) : String :=
  String.mk (resolveMentionsAux res text.data.length text.data)

/-! ## Conversation assembler (`get_ticket_conversation`) -/

/-- One remote comment as the assembler reads it: `c.created` (ISO
timestamp string), the author's display name, and the raw body. -/
structure Comment where
  created : String
  author : String
  body : String
deriving DecidableEq

/-- The order `sorted(comments, key=lambda c: c.created)` sorts by:
Python string `<=` on the `created` field. -/
def CommentLe (a b : Comment) : Prop := lexLe a.created.data b.created.data = true

instance : DecidableRel CommentLe := fun _ _ =>
  inferInstanceAs (Decidable (_ = true))

/-- Python `s.strip()`: drop leading and trailing whitespace. -/
def pyStrip (s : String) : String :=
  String.mk (((s.data.dropWhile Char.isWhitespace).reverse.dropWhile
    Char.isWhitespace).reverse)

/-- `comment.created.split("T")[0]`. -/
def dateOf (created : String) : String :=
  match splitOnChar 'T' created.data with
  | [] => ""
  | g :: _ => String.mk g

/-- The f-string `f"{date} - {author} commented:\n{body}\n\n"` with
`body = resolve_mentions(comment.body.strip(), jira)`. -/
def format_comment (res : String → String) (c : Comment) : String :=
  dateOf c.created ++ " - " ++ c.author ++ " commented:\n" ++
    resolve_mentions res (pyStrip c.body) ++ "\n\n"

/-- `get_ticket_conversation(jira, ticket_key)`, given the remote outcome:
`.error e` models the `except` path (any exception in the fetch), `.ok cs`
the fetched comment list (`[]` when the issue has no comments attribute or
none).  Sorts by creation timestamp, folds the formatted entries together,
and falls back to `"No Comments"` when the accumulated text is empty. -/
def get_ticket_conversation (res : String → String) (ticket_key : String)
    (resp : Except String (List Comment)) : String :=
  match resp with
  | .error e => "Failed to retrieve comments for Ticket " ++ ticket_key ++ ": " ++ e
  | .ok comments =>
    let sorted_comments := List.insertionSort CommentLe comments
    let conv := sorted_comments.foldl (fun acc c => acc ++ format_comment res c) ""
    if conv = "" then "No Comments" else conv

end JiraTicketTool

namespace JiraTicketTool

/-! ## Sanity checks on the embedding (concrete evaluations) -/

example : update_ticket_list_display
    [Ticket.full "A-2" "" none, Ticket.full "A-1" "" none,
     Ticket.full "B-5" "" none, Ticket.full "A-3" "" none]
    ["A-2", "A-3"] = ["A-3*", "A-2*", "A-1", "B-5"] := by decide

example : (fetch_tickets
    ⟨1, [Ticket.full "A-1" "s" none], []⟩
    (.error "boom")).1.tickets = [] := by decide

example : (search_ticket_action
    ⟨1, [Ticket.full "X-1" "old" none], ["X-1"]⟩
    [Ticket.full "X-1" "new" none, Ticket.full "Y-2" "s2" none]).1.tickets
    = [Ticket.full "X-1" "new" none, Ticket.full "Y-2" "s2" none] := by decide

example : resolve_mentions (fun id => if id = "u1" then "Alice" else "?")
    "[~accountid:u1] said hi" = "@Alice said hi" := by decide

example : resolve_mentions (fun _ => "Alice") "no markers here" =
    "no markers here" := by decide

example : get_ticket_conversation (fun _ => "?") "K"
    (.ok [⟨"2024-03-03T10:00", "C", "c3"⟩, ⟨"2024-01-01T10:00", "A", "c1"⟩,
          ⟨"2024-02-02T10:00", "B", "c2"⟩]) =
    "2024-01-01 - A commented:\nc1\n\n2024-02-02 - B commented:\nc2\n\n" ++
    "2024-03-03 - C commented:\nc3\n\n" := by decide

example : get_ticket_conversation (fun _ => "?") "K" (.ok []) = "No Comments" := by
  decide

example : get_ticket_conversation (fun _ => "?") "K" (.error "boom") =
    "Failed to retrieve comments for Ticket K: boom" := by decide

example : get_display_name (fun _ => .error "down") [] "u9" =
    ("Unknown User", []) := by decide

end JiraTicketTool

namespace JiraTicketTool

/-! # Order lemmas for the sort relations -/

theorem char_eq_of_toNat_eq {a b : Char} (h : a.toNat = b.toNat) : a = b := by
  unfold Char.toNat at h
  have hv : a.val = b.val := by
    have h2 := Fin.val_injective (by simpa [UInt32.toNat] using h)
    exact UInt32.eq_of_val_eq h2
  exact Char.eq_of_val_eq hv

theorem lexLe_cons (x y : Char) (xs ys : List Char) :
    lexLe (x :: xs) (y :: ys) = true ↔
      x.toNat < y.toNat ∨ (x.toNat = y.toNat ∧ lexLe xs ys = true) := by
  simp only [lexLe]
  by_cases h1 : x.toNat < y.toNat
  · simp [h1]
  · by_cases h2 : y.toNat < x.toNat
    · simp only [if_neg h1, if_pos h2]
      constructor
      · intro h; simp at h
      · rintro (h | ⟨h, -⟩) <;> omega
    · simp only [if_neg h1, if_neg h2]
      constructor
      · intro h; exact Or.inr ⟨by omega, h⟩
      · rintro (h | ⟨-, h⟩)
        · omega
        · exact h

theorem lexLe_total (a b : List Char) : lexLe a b = true ∨ lexLe b a = true := by
  induction a generalizing b with
  | nil => exact Or.inl rfl
  | cons x xs ih =>
    cases b with
    | nil => exact Or.inr rfl
    | cons y ys =>
      rw [lexLe_cons, lexLe_cons]
      rcases Nat.lt_trichotomy x.toNat y.toNat with h | h | h
      · exact Or.inl (Or.inl h)
      · rcases ih ys with hh | hh
        · exact Or.inl (Or.inr ⟨h, hh⟩)
        · exact Or.inr (Or.inr ⟨h.symm, hh⟩)
      · exact Or.inr (Or.inl h)

theorem lexLe_trans {a b c : List Char} (h1 : lexLe a b = true)
    (h2 : lexLe b c = true) : lexLe a c = true := by
  induction a generalizing b c with
  | nil => rfl
  | cons x xs ih =>
    cases b with
    | nil => simp [lexLe] at h1
    | cons y ys =>
      cases c with
      | nil => simp [lexLe] at h2
      | cons z zs =>
        rw [lexLe_cons] at h1 h2 ⊢
        rcases h1 with h1 | ⟨e1, t1⟩
        · rcases h2 with h2 | ⟨e2, t2⟩
          · exact Or.inl (by omega)
          · exact Or.inl (by omega)
        · rcases h2 with h2 | ⟨e2, t2⟩
          · exact Or.inl (by omega)
          · exact Or.inr ⟨by omega, ih t1 t2⟩

theorem lexLe_antisymm {a b : List Char} (h1 : lexLe a b = true)
    (h2 : lexLe b a = true) : a = b := by
  induction a generalizing b with
  | nil =>
    cases b with
    | nil => rfl
    | cons d ds => simp [lexLe] at h2
  | cons c cs ih =>
    cases b with
    | nil => simp [lexLe] at h1
    | cons d ds =>
      rw [lexLe_cons] at h1 h2
      rcases h1 with h1 | ⟨e1, t1⟩ <;> rcases h2 with h2 | ⟨e2, t2⟩
      · omega
      · omega
      · omega
      · have : c = d := char_eq_of_toNat_eq (by omega)
        rw [this, ih t1 t2]

theorem string_eq_of_data_eq {a b : String} (h : a.data = b.data) : a = b := by
  cases a; cases b; simp_all

theorem tripleLE_iff (a b : Nat × String × Int) :
    tripleLE a b = true ↔
      a.1 < b.1 ∨ (a.1 = b.1 ∧
        (strNeLt a.2.1 b.2.1 ∨ (a.2.1 = b.2.1 ∧ a.2.2 ≤ b.2.2))) := by
  unfold tripleLE strNeLt
  by_cases e1 : a.1 = b.1
  · by_cases e2 : a.2.1 = b.2.1
    · simp [e1, e2]
    · simp [e1, e2]
  · simp [e1]

theorem tripleLE_total (a b : Nat × String × Int) :
    tripleLE a b = true ∨ tripleLE b a = true := by
  rw [tripleLE_iff, tripleLE_iff]
  rcases Nat.lt_trichotomy a.1 b.1 with h | h | h
  · exact Or.inl (Or.inl h)
  · by_cases hs : a.2.1 = b.2.1
    · rcases le_total a.2.2 b.2.2 with hi | hi
      · exact Or.inl (Or.inr ⟨h, Or.inr ⟨hs, hi⟩⟩)
      · exact Or.inr (Or.inr ⟨h.symm, Or.inr ⟨hs.symm, hi⟩⟩)
    · rcases lexLe_total a.2.1.data b.2.1.data with hl | hl
      · exact Or.inl (Or.inr ⟨h, Or.inl ⟨hs, hl⟩⟩)
      · exact Or.inr (Or.inr ⟨h.symm, Or.inl ⟨fun he => hs he.symm, hl⟩⟩)
  · exact Or.inr (Or.inl h)

theorem tripleLE_trans {a b c : Nat × String × Int} (h1 : tripleLE a b = true)
    (h2 : tripleLE b c = true) : tripleLE a c = true := by
  rw [tripleLE_iff] at h1 h2 ⊢
  rcases h1 with h1 | ⟨e1, h1⟩
  · rcases h2 with h2 | ⟨e2, h2⟩
    · exact Or.inl (by omega)
    · exact Or.inl (by omega)
  · rcases h2 with h2 | ⟨e2, h2⟩
    · exact Or.inl (by omega)
    · refine Or.inr ⟨by omega, ?_⟩
      rcases h1 with ⟨n1, l1⟩ | ⟨s1, i1⟩
      · rcases h2 with ⟨n2, l2⟩ | ⟨s2, i2⟩
        · refine Or.inl ⟨fun he => ?_, lexLe_trans l1 l2⟩
          rw [← he] at l2
          exact n1 (string_eq_of_data_eq (lexLe_antisymm l1 l2))
        · refine Or.inl ⟨fun he => n1 (he.trans s2.symm), ?_⟩
          rw [← s2]
          exact l1
      · rcases h2 with ⟨n2, l2⟩ | ⟨s2, i2⟩
        · refine Or.inl ⟨fun he => n2 (s1.symm.trans he), ?_⟩
          rw [s1]
          exact l2
        · exact Or.inr ⟨s1.trans s2, le_trans i1 i2⟩

instance (locked : List String) : IsTotal Ticket (TicketLe locked) :=
  ⟨fun _ _ => tripleLE_total _ _⟩

instance (locked : List String) : IsTrans Ticket (TicketLe locked) :=
  ⟨fun _ _ _ => tripleLE_trans⟩

instance : IsTotal Comment CommentLe := ⟨fun _ _ => lexLe_total _ _⟩

instance : IsTrans Comment CommentLe := ⟨fun _ _ _ => lexLe_trans⟩

end JiraTicketTool

namespace JiraTicketTool

/-! # Claim C4: display order -/

/-- C4 (counterexample): for the collection holding A-2 (locked), A-1, B-5,
A-3 (locked), the rendered order is NOT `[A-2*, A-3*, A-1, B-5]` — the
numeric portion sorts descending, so A-3 comes before A-2 within the locked
group. -/
theorem c4_display_order_counterexample :
    update_ticket_list_display
      [Ticket.full "A-2" "summary2" none, Ticket.full "A-1" "summary1" none,
       Ticket.full "B-5" "summary5" none, Ticket.full "A-3" "summary3" none]
      ["A-2", "A-3"] ≠ ["A-2*", "A-3*", "A-1", "B-5"] := by decide

/-- C4 (amended): the displayed list maps the collection sorted (stably) by
the order `TicketLe` — locked first, then alphabetic project-prefix portion,
then numeric portion descending — to `*`-marked labels; for the collection
holding A-2 (locked), A-1, B-5, A-3 (locked) the rendered order is exactly
`[A-3*, A-2*, A-1, B-5]`. -/
theorem c4_display_order_amended :
    (∀ (tickets : List Ticket) (locked : List String),
      (List.insertionSort (TicketLe locked) tickets).Sorted (TicketLe locked) ∧
      List.Perm (List.insertionSort (TicketLe locked) tickets) tickets ∧
      update_ticket_list_display tickets locked =
        (List.insertionSort (TicketLe locked) tickets).map (fun t =>
          if t.key ∈ locked ∧ ¬ (t.key.data.getLast? = some '*') then t.key ++ "*"
          else t.key)) ∧
    update_ticket_list_display
      [Ticket.full "A-2" "summary2" none, Ticket.full "A-1" "summary1" none,
       Ticket.full "B-5" "summary5" none, Ticket.full "A-3" "summary3" none]
      ["A-2", "A-3"] = ["A-3*", "A-2*", "A-1", "B-5"] := by
  constructor
  · intro tickets locked
    exact ⟨List.sorted_insertionSort _ _, List.perm_insertionSort _ _, rfl⟩
  · decide

/-! # Claim C3: failure atomicity -/

/-- C3 (counterexample): a failed first-page fetch does NOT leave the
collection unchanged — the page-1 reset to locked tickets runs before the
result is inspected, so the unlocked ticket A-1 is dropped. -/
theorem c3_failure_atomicity_counterexample :
    (fetch_tickets ⟨1, [Ticket.full "A-1" "login broken" none], []⟩
      (.error "connection timed out")).1.tickets = [] ∧
    ([Ticket.full "A-1" "login broken" none] : List Ticket) ≠ [] := by decide

/-- C3 (amended): on a failed fetch, the locked set and the page cursor are
unchanged and an error is reported; the collection is unchanged except when
the cursor is at the first page, where it is reset to its locked tickets
(`fetchBase`).  A failed (empty-result) search leaves the whole state
unchanged. -/
theorem c3_failure_atomicity_amended (s : UIState) (e : String) :
    (fetch_tickets s (.error e)).1.locked_tickets = s.locked_tickets ∧
    (fetch_tickets s (.error e)).1.current_page = s.current_page ∧
    (fetch_tickets s (.error e)).1.tickets = fetchBase s ∧
    (fetch_tickets s (.error e)).2 =
      [Report.error ("Failed to retrieve tickets: " ++ e),
       Report.info "No more tickets available."] ∧
    (search_ticket_action s []).1 = s := ⟨rfl, rfl, rfl, rfl, rfl⟩

/-! # Claim C10: selection/display agreement -/

/-- C10 (refuted, code bug): with the collection `[B-5, A-1]` in insertion
order and nothing locked, the display shows "A-1" at row 0, but selecting
row 0 loads `self.tickets[0]`, the ticket with key "B-5": the selection
handler indexes the unsorted collection with the sorted display row. -/
theorem c10_selection_display_mismatch :
    (update_ticket_list_display
      [Ticket.full "B-5" "fix crash" none, Ticket.full "A-1" "add test" none]
      [])[0]? = some "A-1" ∧
    (on_ticket_select ⟨1, [Ticket.full "B-5" "fix crash" none,
      Ticket.full "A-1" "add test" none], []⟩ 0).map Ticket.key = some "B-5" ∧
    ((update_ticket_list_display
      [Ticket.full "B-5" "fix crash" none, Ticket.full "A-1" "add test" none]
      [])[0]?).map rstripStar ≠
    (on_ticket_select ⟨1, [Ticket.full "B-5" "fix crash" none,
      Ticket.full "A-1" "add test" none], []⟩ 0).map Ticket.key := by decide

/-! # Claim C9: identity resolution -/

/-- C9: `get_display_name` returns the cached name when present (cache
untouched); otherwise queries the remote service, caches and returns the
result (so a later call for the same id — under any remote behaviour
`remote2` — is served from the cache); on a lookup failure it returns the
"Unknown User" sentinel without caching it, so a later call behaves exactly
like a fresh one and retries the remote lookup.  The function is total:
it never raises to the caller. -/
theorem c9_identity_resolution
    (remote remote2 : String → Except String (Option String))
    (cache : List (String × String)) (account_id : String) :
    (∀ name, (cache.find? (fun p => p.1 == account_id)).map Prod.snd = some name →
      get_display_name remote cache account_id = (name, cache)) ∧
    ((cache.find? (fun p => p.1 == account_id)).map Prod.snd = none →
      (∀ u, remote account_id = .ok u →
        get_display_name remote cache account_id =
          (u.getD account_id, cache ++ [(account_id, u.getD account_id)]) ∧
        get_display_name remote2 (cache ++ [(account_id, u.getD account_id)])
            account_id =
          (u.getD account_id, cache ++ [(account_id, u.getD account_id)])) ∧
      (∀ e, remote account_id = .error e →
        get_display_name remote cache account_id = ("Unknown User", cache) ∧
        get_display_name remote2 (get_display_name remote cache account_id).2
            account_id =
          get_display_name remote2 cache account_id)) := by
  constructor
  · intro name h
    unfold get_display_name
    rw [h]
  · intro h
    have hf : cache.find? (fun p => p.1 == account_id) = none := by
      cases hc : cache.find? (fun p => p.1 == account_id) with
      | none => rfl
      | some v => rw [hc] at h; simp at h
    refine ⟨fun u hu => ⟨?_, ?_⟩, fun e he => ?_⟩
    · unfold get_display_name
      rw [h, hu]
    · unfold get_display_name
      rw [List.find?_append, hf]
      simp
    · have hfail : get_display_name remote cache account_id = ("Unknown User", cache) := by
        unfold get_display_name
        rw [h, he]
      exact ⟨hfail, by rw [hfail]⟩

/-- Witness for C9 at concrete inputs: an uncached success caches and
returns "Alice"; an uncached failure returns the sentinel with the cache
left empty. -/
theorem c9_identity_resolution_witness :
    get_display_name (fun _ => .ok (some "Alice")) [] "u1" =
      ("Alice", [("u1", "Alice")]) ∧
    get_display_name (fun _ => .error "down") [] "u1" = ("Unknown User", []) := by
  have h1 := c9_identity_resolution (fun _ => .ok (some "Alice"))
    (fun _ => .ok (some "Alice")) [] "u1"
  have h2 := c9_identity_resolution (fun _ => .error "down")
    (fun _ => .error "down") [] "u1"
  exact ⟨((h1.2 rfl).1 (some "Alice") rfl).1, ((h2.2 rfl).2 "down" rfl).1⟩

/-! # Claim C7: pagination cursor -/

/-- C7: a fetch succeeding with a non-empty page appends the page's tickets
whose keys are not already present and advances the page counter by one,
reporting nothing; a fetch succeeding with an empty page leaves the counter
unchanged and reports exhaustion with an info box, not an error. -/
theorem c7_pagination_cursor (s : UIState) (l : List Ticket) :
    (l ≠ [] →
      (fetch_tickets s (.ok l)).1.current_page = s.current_page + 1 ∧
      (fetch_tickets s (.ok l)).1.tickets =
        fetchBase s ++ l.filter (fun t => t.key ∉ (fetchBase s).map Ticket.key) ∧
      (fetch_tickets s (.ok l)).1.locked_tickets = s.locked_tickets ∧
      (fetch_tickets s (.ok l)).2 = []) ∧
    (l = [] →
      (fetch_tickets s (.ok l)).1.current_page = s.current_page ∧
      (fetch_tickets s (.ok l)).1.locked_tickets = s.locked_tickets ∧
      (fetch_tickets s (.ok l)).2 = [Report.info "No more tickets available."]) := by
  constructor
  · intro h
    have hne : l.isEmpty = false := by
      cases l with
      | nil => exact absurd rfl h
      | cons a as => rfl
    unfold fetch_tickets get_recent_tickets
    simp [hne]
  · intro h
    subst h
    exact ⟨rfl, rfl, rfl⟩

/-- Witness for C7: fetching page 2 with a two-ticket result (one already
present) advances the counter to 3 and appends only the new ticket; an
empty result reports exhaustion as info. -/
theorem c7_pagination_cursor_witness :
    (fetch_tickets ⟨2, [Ticket.full "A-9" "s9" none], []⟩
      (.ok [Ticket.full "A-9" "s9" none, Ticket.full "A-8" "s8" none])).1.current_page
        = 2 + 1 ∧
    (fetch_tickets ⟨2, [Ticket.full "A-9" "s9" none], []⟩
      (.ok [Ticket.full "A-9" "s9" none, Ticket.full "A-8" "s8" none])).1.tickets =
      fetchBase ⟨2, [Ticket.full "A-9" "s9" none], []⟩ ++
        [Ticket.full "A-9" "s9" none, Ticket.full "A-8" "s8" none].filter
          (fun t => t.key ∉ (fetchBase ⟨2, [Ticket.full "A-9" "s9" none], []⟩).map
            Ticket.key) ∧
    (fetch_tickets ⟨2, [Ticket.full "A-9" "s9" none], []⟩ (.ok [])).2 =
      [Report.info "No more tickets available."] := by
  have h := c7_pagination_cursor ⟨2, [Ticket.full "A-9" "s9" none], []⟩
    [Ticket.full "A-9" "s9" none, Ticket.full "A-8" "s8" none]
  have h2 := c7_pagination_cursor ⟨2, [Ticket.full "A-9" "s9" none], []⟩ []
  exact ⟨(h.1 (by decide)).1, (h.1 (by decide)).2.1, (h2.2 rfl).2.2⟩

end JiraTicketTool

namespace JiraTicketTool

/-! # Dict lemmas for the search merge -/

theorem dictKeys_cons (p : String × Ticket) (d : List (String × Ticket)) :
    dictKeys (p :: d) = p.1 :: dictKeys d := rfl

theorem wfdict_nil : WFDict [] := fun p hp => absurd hp (List.not_mem_nil p)

theorem dlookup_dictInsert (a k : String) (v : Ticket) (d : List (String × Ticket)) :
    dlookup a (dictInsert k v d) = if a = k then some v else dlookup a d := by
  induction d with
  | nil =>
    by_cases h : a = k
    · simp [dictInsert, dlookup, h]
    · have h' : ¬ k = a := fun hh => h hh.symm
      simp [dictInsert, dlookup, h, h']
  | cons p ps ih =>
    by_cases hp : p.1 = k
    · by_cases ha : a = k
      · simp [dictInsert, dlookup, hp, ha]
      · have ha' : ¬ k = a := fun hh => ha hh.symm
        have hpa : ¬ p.1 = a := by rw [hp]; exact ha'
        simp [dictInsert, dlookup, hp, ha, ha', hpa]
    · by_cases hpa : p.1 = a
      · have ha : ¬ a = k := fun hh => hp (hpa.trans hh)
        simp [dictInsert, dlookup, hp, hpa, ha]
      · simp [dictInsert, dlookup, hp, hpa, ih]

theorem mem_dictKeys_dictInsert (a k : String) (v : Ticket)
    (d : List (String × Ticket)) :
    a ∈ dictKeys (dictInsert k v d) ↔ a = k ∨ a ∈ dictKeys d := by
  induction d with
  | nil => simp [dictInsert, dictKeys]
  | cons p ps ih =>
    by_cases hp : p.1 = k
    · have he : dictInsert k v (p :: ps) = (k, v) :: ps := by simp [dictInsert, hp]
      rw [he, dictKeys_cons, dictKeys_cons, List.mem_cons, List.mem_cons]
      constructor
      · rintro (h | h)
        · exact Or.inl h
        · exact Or.inr (Or.inr h)
      · rintro (h | h | h)
        · exact Or.inl h
        · exact Or.inl (by rw [h, hp])
        · exact Or.inr h
    · have he : dictInsert k v (p :: ps) = p :: dictInsert k v ps := by
        simp [dictInsert, hp]
      rw [he, dictKeys_cons, dictKeys_cons, List.mem_cons, List.mem_cons, ih]
      tauto

theorem nodup_dictKeys_dictInsert (k : String) (v : Ticket)
    {d : List (String × Ticket)} (h : (dictKeys d).Nodup) :
    (dictKeys (dictInsert k v d)).Nodup := by
  induction d with
  | nil => simp [dictInsert, dictKeys]
  | cons p ps ih =>
    rw [dictKeys_cons, List.nodup_cons] at h
    by_cases hp : p.1 = k
    · have he : dictInsert k v (p :: ps) = (k, v) :: ps := by simp [dictInsert, hp]
      rw [he, dictKeys_cons, List.nodup_cons]
      exact ⟨by rw [← hp]; exact h.1, h.2⟩
    · have he : dictInsert k v (p :: ps) = p :: dictInsert k v ps := by
        simp [dictInsert, hp]
      rw [he, dictKeys_cons, List.nodup_cons]
      refine ⟨fun hm => ?_, ih h.2⟩
      rcases (mem_dictKeys_dictInsert _ _ _ _).mp hm with he2 | hm2
      · exact hp he2
      · exact h.1 hm2

theorem mem_dictInsert_elim {p : String × Ticket} {k : String} {v : Ticket}
    {d : List (String × Ticket)} (h : p ∈ dictInsert k v d) :
    p = (k, v) ∨ p ∈ d := by
  induction d with
  | nil =>
    simp [dictInsert] at h
    exact Or.inl h
  | cons q qs ih =>
    by_cases hq : q.1 = k
    · have he : dictInsert k v (q :: qs) = (k, v) :: qs := by simp [dictInsert, hq]
      rw [he, List.mem_cons] at h
      rcases h with h | h
      · exact Or.inl h
      · exact Or.inr (List.mem_cons_of_mem _ h)
    · have he : dictInsert k v (q :: qs) = q :: dictInsert k v qs := by
        simp [dictInsert, hq]
      rw [he, List.mem_cons] at h
      rcases h with h | h
      · exact Or.inr (by rw [h]; exact List.mem_cons_self _ _)
      · rcases ih h with h2 | h2
        · exact Or.inl h2
        · exact Or.inr (List.mem_cons_of_mem _ h2)

theorem wfdict_dictInsert {d : List (String × Ticket)} (h : WFDict d)
    {k : String} {v : Ticket} (hv : Ticket.key v = k) :
    WFDict (dictInsert k v d) := by
  intro p hp
  rcases mem_dictInsert_elim hp with he | hm
  · rw [he]; exact hv
  · exact h p hm

theorem dictInsertList_cons (d : List (String × Ticket)) (t : Ticket)
    (ts : List Ticket) :
    dictInsertList d (t :: ts) = dictInsertList (dictInsert t.key t d) ts := rfl

theorem dlookup_dictInsertList (a : String) (d : List (String × Ticket))
    (ts : List Ticket) :
    dlookup a (dictInsertList d ts) =
      match lookupLast a ts with
      | some u => some u
      | none => dlookup a d := by
  induction ts generalizing d with
  | nil => rfl
  | cons t ts ih =>
    rw [dictInsertList_cons, ih]
    cases hl : lookupLast a ts with
    | some u => simp [lookupLast, hl]
    | none =>
      simp only [lookupLast, hl]
      rw [dlookup_dictInsert]
      by_cases ht : a = t.key
      · rw [if_pos ht, if_pos ht.symm]
      · rw [if_neg ht, if_neg (fun hh => ht hh.symm)]

theorem mem_dictKeys_dictInsertList (a : String) (d : List (String × Ticket))
    (ts : List Ticket) :
    a ∈ dictKeys (dictInsertList d ts) ↔ a ∈ ts.map Ticket.key ∨ a ∈ dictKeys d := by
  induction ts generalizing d with
  | nil => simp [dictInsertList]
  | cons t ts ih =>
    rw [dictInsertList_cons, ih, List.map_cons, List.mem_cons,
      mem_dictKeys_dictInsert]
    tauto

theorem nodup_dictKeys_dictInsertList (d : List (String × Ticket))
    (ts : List Ticket) (h : (dictKeys d).Nodup) :
    (dictKeys (dictInsertList d ts)).Nodup := by
  induction ts generalizing d with
  | nil => exact h
  | cons t ts ih =>
    rw [dictInsertList_cons]
    exact ih _ (nodup_dictKeys_dictInsert _ _ h)

theorem wfdict_dictInsertList {d : List (String × Ticket)} (h : WFDict d)
    (ts : List Ticket) : WFDict (dictInsertList d ts) := by
  induction ts generalizing d with
  | nil => exact h
  | cons t ts ih =>
    rw [dictInsertList_cons]
    exact ih (wfdict_dictInsert h rfl)

theorem lookupKey_values {d : List (String × Ticket)} (h : WFDict d)
    (a : String) : lookupKey a (d.map Prod.snd) = dlookup a d := by
  induction d with
  | nil => rfl
  | cons p ps ih =>
    have hk : Ticket.key p.2 = p.1 := h p (List.mem_cons_self _ _)
    simp only [List.map_cons, lookupKey, dlookup, hk]
    by_cases hp : p.1 = a
    · simp [hp]
    · simp [hp, ih (fun q hq => h q (List.mem_cons_of_mem _ hq))]

theorem keys_values {d : List (String × Ticket)} (h : WFDict d) :
    (d.map Prod.snd).map Ticket.key = dictKeys d := by
  induction d with
  | nil => rfl
  | cons p ps ih =>
    have hk : Ticket.key p.2 = p.1 := h p (List.mem_cons_self _ _)
    rw [List.map_cons, List.map_cons, hk, dictKeys_cons,
      ih (fun q hq => h q (List.mem_cons_of_mem _ hq))]

theorem dlookup_isSome_iff (a : String) (d : List (String × Ticket)) :
    (dlookup a d).isSome = true ↔ a ∈ dictKeys d := by
  induction d with
  | nil => simp [dlookup, dictKeys]
  | cons p ps ih =>
    rw [dictKeys_cons, List.mem_cons]
    by_cases hp : p.1 = a
    · simp [dlookup, hp]
    · have hp2 : ¬ a = p.1 := fun hh => hp hh.symm
      simp [dlookup, hp, hp2, ih]

theorem lookupLast_isSome_of_mem {t : Ticket} {ts : List Ticket} (h : t ∈ ts) :
    (lookupLast t.key ts).isSome = true := by
  induction ts with
  | nil => simp at h
  | cons u us ih =>
    rcases List.mem_cons.mp h with he | hm
    · subst he
      cases hl : lookupLast t.key us with
      | some v => simp [lookupLast, hl]
      | none => simp [lookupLast, hl]
    · have hs := ih hm
      cases hl : lookupLast t.key us with
      | some v => simp [lookupLast, hl]
      | none => rw [hl] at hs; simp at hs

end JiraTicketTool

namespace JiraTicketTool

/-! # The search merge characterized -/

/-- The trailing `non_locked` loop of `search_ticket_action` appends
nothing: every search result was already inserted into the dict, so its key
is always among the merged keys. -/
theorem search_dead_filter (s : UIState) (results : List Ticket) :
    ((results.filter (fun t => t.key ∉ s.locked_tickets)).filter
      (fun t => t.key ∉
        ((dictInsertList
          (dictInsertList [] (s.tickets.filter (fun t => t.key ∈ s.locked_tickets)))
          results).map Prod.snd).map Ticket.key)) = [] := by
  apply List.filter_eq_nil_iff.mpr
  intro t ht
  have htr : t ∈ results := List.mem_of_mem_filter ht
  have hwf : WFDict (dictInsertList (dictInsertList []
      (s.tickets.filter (fun t => t.key ∈ s.locked_tickets))) results) :=
    wfdict_dictInsertList (wfdict_dictInsertList wfdict_nil _) _
  have hmem : t.key ∈ dictKeys (dictInsertList (dictInsertList []
      (s.tickets.filter (fun t => t.key ∈ s.locked_tickets))) results) := by
    rw [← dlookup_isSome_iff, dlookup_dictInsertList]
    cases hl : lookupLast t.key results with
    | some u => rfl
    | none =>
      have hs := lookupLast_isSome_of_mem htr
      rw [hl] at hs
      simp at hs
  rw [keys_values hwf]
  simp [hmem]

/-- On a non-empty search result, the new collection is exactly the values
of the dict built by inserting the locked portion of the old collection and
then every result. -/
theorem search_action_tickets_eq (s : UIState) (results : List Ticket)
    (h : results ≠ []) :
    (search_ticket_action s results).1.tickets =
      (dictInsertList
        (dictInsertList [] (s.tickets.filter (fun t => t.key ∈ s.locked_tickets)))
        results).map Prod.snd := by
  have hne : results.isEmpty = false := by
    cases results with
    | nil => exact absurd rfl h
    | cons a as => rfl
  unfold search_ticket_action
  rw [if_neg (by simp [hne])]
  simp only []
  rw [search_dead_filter, List.append_nil]

end JiraTicketTool

namespace JiraTicketTool

/-! # Claim C5: search merge -/

/-- C5 (counterexample): a search call whose remote lookup returns no
results leaves the collection unchanged (the early return at lines 331-333):
with the unlocked ticket A-1 present and an empty result, the resulting
collection still holds A-1, although A-1 is neither a locked ticket already
present nor a search result — so for that call the resulting collection is
not (locked tickets already present) ∪ (search results). -/
theorem c5_search_merge_counterexample :
    (search_ticket_action ⟨1, [Ticket.full "A-1" "s" none], []⟩ []).1.tickets =
      [Ticket.full "A-1" "s" none] ∧
    lookupKey "A-1" (search_ticket_action ⟨1, [Ticket.full "A-1" "s" none], []⟩
      []).1.tickets = some (Ticket.full "A-1" "s" none) ∧
    lookupLast "A-1" ([] : List Ticket) = none ∧
    lookupLast "A-1" ([Ticket.full "A-1" "s" none].filter
      (fun t => t.key ∈ ([] : List String))) = none := by decide

/-- C5 (amended): a search call returning no results leaves the state
unchanged (the result is only reported); after a search with a non-empty
result, the collection is the union of the locked tickets already present
and the search results, deduplicated by key: its keys are duplicate-free,
and the ticket stored under any key `a` is the (last) search result with
that key if one exists, else the (last) locked ticket with that key already
present, else absent. -/
theorem c5_search_merge_amended (s : UIState) (results : List Ticket)
    (a : String) :
    (results = [] → (search_ticket_action s results).1 = s) ∧
    (results ≠ [] →
      ((search_ticket_action s results).1.tickets.map Ticket.key).Nodup ∧
      lookupKey a (search_ticket_action s results).1.tickets =
        (match lookupLast a results with
         | some t => some t
         | none =>
           lookupLast a (s.tickets.filter (fun t => t.key ∈ s.locked_tickets)))) := by
  constructor
  · intro he
    subst he
    rfl
  · intro h
    rw [search_action_tickets_eq s results h]
    have hwf : WFDict (dictInsertList (dictInsertList []
        (s.tickets.filter (fun t => t.key ∈ s.locked_tickets))) results) :=
      wfdict_dictInsertList (wfdict_dictInsertList wfdict_nil _) _
    constructor
    · rw [keys_values hwf]
      exact nodup_dictKeys_dictInsertList _ _
        (nodup_dictKeys_dictInsertList _ _ (by simp [dictKeys]))
    · rw [lookupKey_values hwf, dlookup_dictInsertList]
      cases lookupLast a results with
      | some t => rfl
      | none =>
        rw [dlookup_dictInsertList]
        cases lookupLast a (s.tickets.filter (fun t => t.key ∈ s.locked_tickets)) with
        | some t => rfl
        | none => rfl

/-- Witness for C5 (amended): an empty result leaves the state (with the
unlocked A-1) untouched; at the spec's example, locked {X-1} in the
collection and results [X-1 updated, Y-2] give the collection
{X-1 updated, Y-2} of size 2. -/
theorem c5_search_merge_amended_witness :
    (search_ticket_action ⟨1, [Ticket.full "A-1" "s" none], []⟩ []).1 =
      ⟨1, [Ticket.full "A-1" "s" none], []⟩ ∧
    (((search_ticket_action ⟨1, [Ticket.full "X-1" "old summary" none], ["X-1"]⟩
      [Ticket.full "X-1" "updated summary" none,
       Ticket.full "Y-2" "other" none]).1.tickets.map Ticket.key).Nodup ∧
    lookupKey "X-1" (search_ticket_action
      ⟨1, [Ticket.full "X-1" "old summary" none], ["X-1"]⟩
      [Ticket.full "X-1" "updated summary" none,
       Ticket.full "Y-2" "other" none]).1.tickets =
      some (Ticket.full "X-1" "updated summary" none)) ∧
    lookupKey "Y-2" (search_ticket_action
      ⟨1, [Ticket.full "X-1" "old summary" none], ["X-1"]⟩
      [Ticket.full "X-1" "updated summary" none,
       Ticket.full "Y-2" "other" none]).1.tickets =
      some (Ticket.full "Y-2" "other" none) ∧
    (search_ticket_action ⟨1, [Ticket.full "X-1" "old summary" none], ["X-1"]⟩
      [Ticket.full "X-1" "updated summary" none,
       Ticket.full "Y-2" "other" none]).1.tickets.length = 2 := by
  have h0 := c5_search_merge_amended ⟨1, [Ticket.full "A-1" "s" none], []⟩ [] "A-1"
  have h1 := c5_search_merge_amended
    ⟨1, [Ticket.full "X-1" "old summary" none], ["X-1"]⟩
    [Ticket.full "X-1" "updated summary" none, Ticket.full "Y-2" "other" none]
    "X-1"
  have h2 := c5_search_merge_amended
    ⟨1, [Ticket.full "X-1" "old summary" none], ["X-1"]⟩
    [Ticket.full "X-1" "updated summary" none, Ticket.full "Y-2" "other" none]
    "Y-2"
  exact ⟨h0.1 rfl,
    ⟨(h1.2 (by decide)).1, ((h1.2 (by decide)).2).trans (by decide)⟩,
    ((h2.2 (by decide)).2).trans (by decide), by decide⟩
/-! # Claim C6: search report count -/

/-- C6 (counterexample): with the locked stub Z-9 in the collection and a
single search result Y-2, the user is told "Found 2 ticket(s)." although the
search found one ticket: the reported number is the merged collection size,
not the result count. -/
theorem c6_search_count_counterexample :
    (search_ticket_action ⟨1, [Ticket.stub "Z-9"], ["Z-9"]⟩
      [Ticket.full "Y-2" "found" none]).2 =
      [Report.info "Found 2 ticket(s).\n"] ∧
    ([Ticket.full "Y-2" "found" none] : List Ticket).length = 1 := by decide

/-- C6 (amended): after a search with a non-empty result, the reported count
is the size of the post-merge collection — the number of distinct keys among
the locked tickets already present and the search results — not the number
of tickets returned by the search. -/
theorem c6_search_count_amended (s : UIState) (results : List Ticket)
    (h : results ≠ []) :
    (search_ticket_action s results).2 =
      [Report.info ("Found " ++
        toString (search_ticket_action s results).1.tickets.length ++
        " ticket(s).\n")] ∧
    (search_ticket_action s results).1.tickets.length =
      (((s.tickets.filter (fun t => t.key ∈ s.locked_tickets)).map Ticket.key ++
        results.map Ticket.key).dedup).length := by
  have hne : results.isEmpty = false := by
    cases results with
    | nil => exact absurd rfl h
    | cons a as => rfl
  constructor
  · unfold search_ticket_action
    rw [if_neg (by simp [hne])]
  · rw [search_action_tickets_eq s results h]
    have hwf : WFDict (dictInsertList (dictInsertList []
        (s.tickets.filter (fun t => t.key ∈ s.locked_tickets))) results) :=
      wfdict_dictInsertList (wfdict_dictInsertList wfdict_nil _) _
    have hnd : (dictKeys (dictInsertList (dictInsertList []
        (s.tickets.filter (fun t => t.key ∈ s.locked_tickets))) results)).Nodup :=
      nodup_dictKeys_dictInsertList _ _
        (nodup_dictKeys_dictInsertList _ _ (by simp [dictKeys]))
    have hperm : List.Perm
        (dictKeys (dictInsertList (dictInsertList []
          (s.tickets.filter (fun t => t.key ∈ s.locked_tickets))) results))
        (((s.tickets.filter (fun t => t.key ∈ s.locked_tickets)).map Ticket.key ++
          results.map Ticket.key).dedup) := by
      apply (List.perm_ext_iff_of_nodup hnd (List.nodup_dedup _)).mpr
      intro a
      rw [List.mem_dedup, List.mem_append, mem_dictKeys_dictInsertList,
        mem_dictKeys_dictInsertList]
      simp [dictKeys]
      constructor
      · rintro (h | h)
        · exact Or.inr h
        · exact Or.inl h
      · rintro (h | h)
        · exact Or.inr h
        · exact Or.inl h
    calc ((dictInsertList (dictInsertList []
        (s.tickets.filter (fun t => t.key ∈ s.locked_tickets)))
          results).map Prod.snd).length
        = (dictKeys (dictInsertList (dictInsertList []
            (s.tickets.filter (fun t => t.key ∈ s.locked_tickets)))
              results)).length := by
          rw [List.length_map, dictKeys, List.length_map]
      _ = (((s.tickets.filter (fun t => t.key ∈ s.locked_tickets)).map
            Ticket.key ++ results.map Ticket.key).dedup).length :=
          hperm.length_eq

/-- Witness for C6 (amended) at the counterexample input: the reported
message carries the merged size 2, which is the number of distinct keys. -/
theorem c6_search_count_amended_witness :
    (search_ticket_action ⟨1, [Ticket.stub "Z-9"], ["Z-9"]⟩
      [Ticket.full "Y-2" "found" none]).2 =
      [Report.info ("Found " ++
        toString (search_ticket_action ⟨1, [Ticket.stub "Z-9"], ["Z-9"]⟩
          [Ticket.full "Y-2" "found" none]).1.tickets.length ++
        " ticket(s).\n")] ∧
    (search_ticket_action ⟨1, [Ticket.stub "Z-9"], ["Z-9"]⟩
      [Ticket.full "Y-2" "found" none]).1.tickets.length =
      ((([Ticket.stub "Z-9"].filter
          (fun t => t.key ∈ (["Z-9"] : List String))).map Ticket.key ++
        [Ticket.full "Y-2" "found" none].map Ticket.key).dedup).length :=
  c6_search_count_amended ⟨1, [Ticket.stub "Z-9"], ["Z-9"]⟩
    [Ticket.full "Y-2" "found" none] (by decide)

end JiraTicketTool

namespace JiraTicketTool

/-! # Key-uniqueness preservation lemmas (for C1) -/

theorem keysNodup_fetchBase (s : UIState) (h : KeysNodup s) :
    ((fetchBase s).map Ticket.key).Nodup := by
  unfold fetchBase
  by_cases hp : s.current_page = 1
  · rw [if_pos hp]
    exact List.Nodup.sublist ((List.filter_sublist _).map _) h
  · rw [if_neg hp]
    exact h

theorem keysNodup_fetch (s : UIState) (resp : Except String (List Ticket))
    (h : KeysNodup s) (hp : ∀ l, resp = .ok l → (l.map Ticket.key).Nodup) :
    KeysNodup (fetch_tickets s resp).1 := by
  cases resp with
  | error e => exact keysNodup_fetchBase s h
  | ok l =>
    cases l with
    | nil => exact keysNodup_fetchBase s h
    | cons t ts =>
      show (((fetchBase s) ++
        (t :: ts).filter (fun x => x.key ∉ (fetchBase s).map Ticket.key)).map
          Ticket.key).Nodup
      rw [List.map_append]
      apply List.Nodup.append
      · exact keysNodup_fetchBase s h
      · exact List.Nodup.sublist ((List.filter_sublist _).map _) (hp (t :: ts) rfl)
      · intro a ha hb
        rcases List.mem_map.mp hb with ⟨x, hx, hxa⟩
        have hnx := List.of_mem_filter hx
        simp only [decide_eq_true_eq] at hnx
        rw [← hxa] at ha
        exact hnx ha

theorem keysNodup_search (s : UIState) (results : List Ticket)
    (h : KeysNodup s) : KeysNodup (search_ticket_action s results).1 := by
  cases results with
  | nil => exact h
  | cons r rs =>
    have hwf : WFDict (dictInsertList (dictInsertList []
        (s.tickets.filter (fun t => t.key ∈ s.locked_tickets))) (r :: rs)) :=
      wfdict_dictInsertList (wfdict_dictInsertList wfdict_nil _) _
    show ((search_ticket_action s (r :: rs)).1.tickets.map Ticket.key).Nodup
    rw [search_action_tickets_eq s (r :: rs) (by simp), keys_values hwf]
    exact nodup_dictKeys_dictInsertList _ _
      (nodup_dictKeys_dictInsertList _ _ (by simp [dictKeys]))

theorem keysNodup_toggle (s : UIState) (keys : List String)
    (h : KeysNodup s) : KeysNodup (lock_selected_tickets s keys) := h

theorem keysNodup_startup (locked : List String) :
    KeysNodup (initState locked) := by
  show ((startup_stubs locked).map Ticket.key).Nodup
  unfold startup_stubs
  suffices haux : ∀ acc : List Ticket, (acc.map Ticket.key).Nodup →
      ((locked.foldl
        (fun ts k => if ts.any (fun t => t.key = k) then ts else ts ++ [Ticket.stub k])
        acc).map Ticket.key).Nodup by
    exact haux [] (by simp)
  induction locked with
  | nil => intro acc h; exact h
  | cons k ks ih =>
    intro acc h
    rw [List.foldl_cons]
    apply ih
    by_cases ha : acc.any (fun t => t.key = k)
    · rw [if_pos ha]
      exact h
    · rw [if_neg ha]
      rw [List.map_append]
      apply List.Nodup.append h (by simp)
      intro a hmem hmem2
      simp [Ticket.key] at hmem2
      subst hmem2
      rcases List.mem_map.mp hmem with ⟨x, hx, hxk⟩
      exact ha (List.any_eq_true.mpr ⟨x, hx, by simp [hxk]⟩)

theorem keysNodup_runOps {s : UIState} (hs : KeysNodup s) (ops : List Op)
    (h : ∀ op ∈ ops, OpOk op = true) : KeysNodup (runOps s ops) := by
  induction ops generalizing s with
  | nil => exact hs
  | cons op rest ih =>
    have hstep : KeysNodup (applyOp s op) := by
      cases op with
      | fetch resp =>
        apply keysNodup_fetch s resp hs
        intro l hl
        have hok := h _ (List.mem_cons_self _ _)
        rw [hl] at hok
        unfold OpOk at hok
        simpa using hok
      | search results => exact keysNodup_search s results hs
      | toggle keys => exact keysNodup_toggle s keys hs
    exact ih hstep (fun o ho => h o (List.mem_cons_of_mem _ ho))

/-! # Claim C1: key-uniqueness invariant -/

/-- C1: starting from the startup state (one stub per locked key), any
sequence of fetch / search / toggle operations — where each successful fetch
page lists pairwise-distinct keys, per the gateway's listing contract —
leaves the collection free of duplicate keys. -/
theorem c1_dedup_invariant (locked : List String) (ops : List Op)
    (h : ∀ op ∈ ops, OpOk op = true) :
    KeysNodup (runOps (initState locked) ops) :=
  keysNodup_runOps (keysNodup_startup locked) ops h

/-- Witness for C1: a concrete run mixing a successful fetch, a search
overlapping it, a lock toggle, and a failed fetch, from a startup state with
one locked key. -/
theorem c1_dedup_invariant_witness :
    (∀ op ∈ ([Op.fetch (.ok [Ticket.full "A-1" "s1" none, Ticket.full "B-2" "s2" none]),
        Op.search [Ticket.full "B-2" "s2b" none, Ticket.full "C-3" "s3" none],
        Op.toggle ["B-2"], Op.fetch (.error "down")] : List Op), OpOk op = true) ∧
    KeysNodup (runOps (initState ["A-1"])
      [Op.fetch (.ok [Ticket.full "A-1" "s1" none, Ticket.full "B-2" "s2" none]),
       Op.search [Ticket.full "B-2" "s2b" none, Ticket.full "C-3" "s3" none],
       Op.toggle ["B-2"], Op.fetch (.error "down")]) :=
  ⟨by decide, c1_dedup_invariant ["A-1"] _ (by decide)⟩

/-! # Lock-persistence lemmas (for C2) -/

theorem locked_key_mem_fetch (s : UIState) (resp : Except String (List Ticket))
    (k : String) (hk : k ∈ s.locked_tickets) (ht : k ∈ s.tickets.map Ticket.key) :
    (fetch_tickets s resp).1.locked_tickets = s.locked_tickets ∧
    k ∈ (fetch_tickets s resp).1.tickets.map Ticket.key := by
  have hbase : k ∈ (fetchBase s).map Ticket.key := by
    unfold fetchBase
    by_cases hp : s.current_page = 1
    · rw [if_pos hp]
      rcases List.mem_map.mp ht with ⟨x, hx, hxk⟩
      exact List.mem_map.mpr ⟨x, List.mem_filter.mpr ⟨hx, by simp [hxk, hk]⟩, hxk⟩
    · rw [if_neg hp]
      exact ht
  cases resp with
  | error e => exact ⟨rfl, hbase⟩
  | ok l =>
    cases l with
    | nil => exact ⟨rfl, hbase⟩
    | cons t ts =>
      refine ⟨rfl, ?_⟩
      show k ∈ ((fetchBase s) ++
        (t :: ts).filter (fun x => x.key ∉ (fetchBase s).map Ticket.key)).map
          Ticket.key
      rw [List.map_append]
      exact List.mem_append.mpr (Or.inl hbase)

theorem locked_key_mem_search (s : UIState) (results : List Ticket)
    (k : String) (hk : k ∈ s.locked_tickets) (ht : k ∈ s.tickets.map Ticket.key) :
    (search_ticket_action s results).1.locked_tickets = s.locked_tickets ∧
    k ∈ (search_ticket_action s results).1.tickets.map Ticket.key := by
  cases results with
  | nil => exact ⟨rfl, ht⟩
  | cons r rs =>
    have hwf : WFDict (dictInsertList (dictInsertList []
        (s.tickets.filter (fun t => t.key ∈ s.locked_tickets))) (r :: rs)) :=
      wfdict_dictInsertList (wfdict_dictInsertList wfdict_nil _) _
    refine ⟨rfl, ?_⟩
    rw [search_action_tickets_eq s (r :: rs) (by simp), keys_values hwf]
    rw [mem_dictKeys_dictInsertList]
    refine Or.inr ?_
    rw [mem_dictKeys_dictInsertList]
    refine Or.inl ?_
    rcases List.mem_map.mp ht with ⟨x, hx, hxk⟩
    exact List.mem_map.mpr ⟨x, List.mem_filter.mpr ⟨hx, by simp [hxk, hk]⟩, hxk⟩

/-! # Claim C2: lock persistence -/

/-- C2: a key that is locked and present in the collection stays locked and
present across any sequence of fetch and search operations (with arbitrary
remote outcomes, including the key being absent from every remote result). -/
theorem c2_lock_persistence (s : UIState) (k : String) (ops : List Op)
    (hops : ∀ op ∈ ops, FetchOrSearch op = true)
    (hk : k ∈ s.locked_tickets) (ht : k ∈ s.tickets.map Ticket.key) :
    k ∈ (runOps s ops).locked_tickets ∧
    k ∈ (runOps s ops).tickets.map Ticket.key := by
  induction ops generalizing s with
  | nil => exact ⟨hk, ht⟩
  | cons op rest ih =>
    have hop := hops op (List.mem_cons_self _ _)
    have hstep : (applyOp s op).locked_tickets = s.locked_tickets ∧
        k ∈ (applyOp s op).tickets.map Ticket.key := by
      cases op with
      | fetch resp => exact locked_key_mem_fetch s resp k hk ht
      | search results => exact locked_key_mem_search s results k hk ht
      | toggle keys => simp [FetchOrSearch] at hop
    have hk2 : k ∈ (applyOp s op).locked_tickets := by
      rw [hstep.1]
      exact hk
    exact ih (applyOp s op) (fun o ho => hops o (List.mem_cons_of_mem _ ho))
      hk2 hstep.2

/-- Witness for C2: the locked key L-1, present as a stub, survives a
successful fetch that does not list it, a search that does not find it, and
a failed fetch at page 1. -/
theorem c2_lock_persistence_witness :
    (∀ op ∈ ([Op.fetch (.ok [Ticket.full "B-2" "s2" none]),
        Op.search [Ticket.full "C-3" "s3" none],
        Op.fetch (.error "down")] : List Op), FetchOrSearch op = true) ∧
    "L-1" ∈ (["L-1"] : List String) ∧
    "L-1" ∈ ([Ticket.stub "L-1", Ticket.full "A-1" "x" none].map Ticket.key) ∧
    ("L-1" ∈ (runOps ⟨1, [Ticket.stub "L-1", Ticket.full "A-1" "x" none], ["L-1"]⟩
      [Op.fetch (.ok [Ticket.full "B-2" "s2" none]),
       Op.search [Ticket.full "C-3" "s3" none],
       Op.fetch (.error "down")]).locked_tickets ∧
    "L-1" ∈ (runOps ⟨1, [Ticket.stub "L-1", Ticket.full "A-1" "x" none], ["L-1"]⟩
      [Op.fetch (.ok [Ticket.full "B-2" "s2" none]),
       Op.search [Ticket.full "C-3" "s3" none],
       Op.fetch (.error "down")]).tickets.map Ticket.key) :=
  ⟨by decide, by decide, by decide,
    c2_lock_persistence ⟨1, [Ticket.stub "L-1", Ticket.full "A-1" "x" none], ["L-1"]⟩
      "L-1" _ (by decide) (by decide) (by decide)⟩

end JiraTicketTool

namespace JiraTicketTool

/-! # Conversation assembly lemmas (for C8) -/

theorem foldl_append_joinStr (f : Comment → String) (l : List Comment) :
    ∀ a : String, l.foldl (fun acc c => acc ++ f c) a = a ++ joinStr (l.map f) := by
  induction l with
  | nil =>
    intro a
    rw [List.foldl_nil, List.map_nil, joinStr]
    exact (String.append_empty a).symm
  | cons c rest ih =>
    intro a
    rw [List.foldl_cons, ih, List.map_cons, joinStr, String.append_assoc]

theorem format_comment_length (res : String → String) (c : Comment) :
    0 < (format_comment res c).length := by
  unfold format_comment
  rw [String.length_append, String.length_append, String.length_append,
    String.length_append, String.length_append]
  have h2 : ("\n\n" : String).length = 2 := rfl
  rw [h2]
  omega

theorem string_ne_empty_of_length_pos {s : String} (h : 0 < s.length) :
    ¬ s = "" := by
  intro he
  rw [he] at h
  simp at h

/-! # Claim C8: conversation assembly -/

/-- C8: `get_ticket_conversation` returns the descriptive error string on a
fetch failure, the "No Comments" sentinel on an empty comment list, and
otherwise the concatenation, over the comments sorted ascending by creation
timestamp (a permutation of the input), of the formatted entries
`DATE - AUTHOR commented:\nBODY\n\n` (with BODY the stripped body passed
through the mention rewriter, via `format_comment`). -/
theorem c8_conversation (res : String → String) (ticket_key e : String)
    (cs : List Comment) :
    get_ticket_conversation res ticket_key (.error e) =
      "Failed to retrieve comments for Ticket " ++ ticket_key ++ ": " ++ e ∧
    get_ticket_conversation res ticket_key (.ok []) = "No Comments" ∧
    (cs ≠ [] →
      get_ticket_conversation res ticket_key (.ok cs) =
        joinStr ((List.insertionSort CommentLe cs).map (format_comment res)) ∧
      List.Sorted CommentLe (List.insertionSort CommentLe cs) ∧
      List.Perm (List.insertionSort CommentLe cs) cs) := by
  refine ⟨rfl, rfl, fun h =>
    ⟨?_, List.sorted_insertionSort _ _, List.perm_insertionSort _ _⟩⟩
  have hfold : (List.insertionSort CommentLe cs).foldl
      (fun acc c => acc ++ format_comment res c) "" =
      joinStr ((List.insertionSort CommentLe cs).map (format_comment res)) := by
    rw [foldl_append_joinStr, String.empty_append]
  have hsne : List.insertionSort CommentLe cs ≠ [] := by
    intro he
    have hperm := List.perm_insertionSort CommentLe cs
    rw [he] at hperm
    exact h hperm.symm.eq_nil
  have hne2 : ¬ joinStr ((List.insertionSort CommentLe cs).map
      (format_comment res)) = "" := by
    cases hs : List.insertionSort CommentLe cs with
    | nil => exact absurd hs hsne
    | cons c0 rest =>
      rw [List.map_cons, joinStr]
      apply string_ne_empty_of_length_pos
      rw [String.length_append]
      have := format_comment_length res c0
      omega
  show (if (List.insertionSort CommentLe cs).foldl
      (fun acc c => acc ++ format_comment res c) "" = "" then "No Comments"
    else (List.insertionSort CommentLe cs).foldl
      (fun acc c => acc ++ format_comment res c) "") =
    joinStr ((List.insertionSort CommentLe cs).map (format_comment res))
  rw [hfold, if_neg hne2]

/-- Witness for C8: the error and empty sentinels at concrete inputs, and
comments created at T3, T1, T2 rendered in the order T1, T2, T3. -/
theorem c8_conversation_witness :
    get_ticket_conversation (fun _ => "?") "PROJ-1" (.error "boom") =
      "Failed to retrieve comments for Ticket " ++ "PROJ-1" ++ ": " ++ "boom" ∧
    get_ticket_conversation (fun _ => "?") "PROJ-1" (.ok []) = "No Comments" ∧
    get_ticket_conversation (fun _ => "?") "PROJ-1"
      (.ok [⟨"2024-03-03T10:00", "C", "c3"⟩, ⟨"2024-01-01T10:00", "A", "c1"⟩,
            ⟨"2024-02-02T10:00", "B", "c2"⟩]) =
      joinStr ((List.insertionSort CommentLe
        [⟨"2024-03-03T10:00", "C", "c3"⟩, ⟨"2024-01-01T10:00", "A", "c1"⟩,
         ⟨"2024-02-02T10:00", "B", "c2"⟩]).map (format_comment (fun _ => "?"))) ∧
    List.Perm (List.insertionSort CommentLe
      [⟨"2024-03-03T10:00", "C", "c3"⟩, ⟨"2024-01-01T10:00", "A", "c1"⟩,
       ⟨"2024-02-02T10:00", "B", "c2"⟩])
      [⟨"2024-03-03T10:00", "C", "c3"⟩, ⟨"2024-01-01T10:00", "A", "c1"⟩,
       ⟨"2024-02-02T10:00", "B", "c2"⟩] ∧
    get_ticket_conversation (fun _ => "?") "PROJ-1"
      (.ok [⟨"2024-03-03T10:00", "C", "c3"⟩, ⟨"2024-01-01T10:00", "A", "c1"⟩,
            ⟨"2024-02-02T10:00", "B", "c2"⟩]) =
      "2024-01-01 - A commented:\nc1\n\n2024-02-02 - B commented:\nc2\n\n" ++
      "2024-03-03 - C commented:\nc3\n\n" := by
  have h := c8_conversation (fun _ => "?") "PROJ-1" "boom"
    [⟨"2024-03-03T10:00", "C", "c3"⟩, ⟨"2024-01-01T10:00", "A", "c1"⟩,
     ⟨"2024-02-02T10:00", "B", "c2"⟩]
  exact ⟨h.1, h.2.1, (h.2.2 (by decide)).1, (h.2.2 (by decide)).2.2, by decide⟩

end JiraTicketTool
